import Mathlib

/-!
Shallow embedding of `src/graph/executor/maintain/TagExecutor.cpp` (nebula):
the six tag-maintenance command executors (CreateTag, DescTag, DropTag,
ShowTags, ShowCreateTag, AlterTag).  Each C++ `execute()` dispatches one
metadata-client call, resumes in a `thenValue` continuation that validates the
`StatusOr` response and transforms it, and is followed by two `thenError`
handlers (`std::bad_alloc`, then `std::exception`).  We model the continuation
as a pure function of the resolved response, the request as an explicit record
of what is handed to the metadata client, and the `thenError` chain as a
transformation on a future outcome that is either a fulfilled `Status` value or
an exceptional state carrying a fault.
-/

namespace TagExec

/-- `nebula::Status`: OK, or a failure carrying a message; `memoryExceeded`
stands for the fixed status built by `memoryExceededStatus()`. -/
inductive Status where
  | ok
  | error (msg : String)
  | memoryExceeded
  deriving DecidableEq, Repr

/-- `nebula::StatusOr<T>`: exactly one of a value or a status is present. -/
inductive StatusOr (α : Type) where
  | ok (v : α)
  | failed (s : Status)
  deriving DecidableEq, Repr

/-- `StatusOr::ok()`. -/
def StatusOr.isOk {α : Type} : StatusOr α → Bool
  | .ok _ => true
  | .failed _ => false

/-- Modelled from the spec: `StatusOr::status()` lives in `common/base/StatusOr.h`,
which is repository code not present under `src/`.  The spec says of the
response union only that "exactly one of payload/failure is present"; we model
the accessor as yielding the stored failure status, and the non-failure (OK)
status when the union holds a payload. -/
def StatusOr.statusField {α : Type} : StatusOr α → Status
  | .failed s => s
  | .ok _ => .ok

/-- One column of `meta::cpp2::Schema` (name and type; the executor never
inspects the fields, it only passes the schema through). -/
structure ColumnDef where
  name : String
  colType : String
  deriving DecidableEq, Repr

/-- `meta::cpp2::SchemaProp` (ttl/comment options; opaque to the executor). -/
structure SchemaProp where
  ttlDuration : Option Int
  ttlCol : Option String
  comment : Option String
  deriving DecidableEq, Repr

/-- `meta::cpp2::Schema`: ordered column list plus optional schema property. -/
structure Schema where
  columns : List ColumnDef
  prop : Option SchemaProp
  deriving DecidableEq, Repr

/-- `meta::cpp2::AlterSchemaOp`. -/
inductive AlterSchemaOp where
  | add
  | drop
  | change
  deriving DecidableEq, Repr

/-- `meta::cpp2::AlterSchemaItem`: one edit operation of an ALTER statement. -/
structure AlterSchemaItem where
  op : AlterSchemaOp
  schema : Schema
  deriving DecidableEq, Repr

/-- `meta::cpp2::TagItem`: one entry of `listTagSchemas`' response. -/
structure TagItem where
  tag_id : Int
  tag_name : String
  version : Int
  schema : Schema
  deriving DecidableEq, Repr

/-- `nebula::TagID`. -/
abbrev TagID := Int

/-- A cell value; the executors here only ever emit strings
(`row.values.emplace_back(name)`), other payloads arrive as whole tables. -/
inductive Value where
  | str (s : String)
  deriving DecidableEq, Repr

/-- `nebula::Row`: ordered values of one row. -/
abbrev Row := List Value

/-- `nebula::DataSet`: ordered column names plus ordered rows. -/
structure DataSet where
  colNames : List String
  rows : List Row
  deriving DecidableEq, Repr

/-- `Iterator::Kind` as used here (`kDefault` only). -/
inductive IterKind where
  | default
  deriving DecidableEq, Repr

/-- The result assembled by `ResultBuilder().value(..).iter(..).build()`. -/
structure Result where
  data : DataSet
  iter : IterKind
  deriving DecidableEq, Repr

/-- One `LOG(WARNING)` record of a failure path: the space id, the command's
target name when the command has one (`SHOW TAGS` has none), and the status
value streamed into the message. -/
structure LogEntry where
  spaceId : Int
  target : Option String
  status : Status
  deriving DecidableEq, Repr

/-- What one `thenValue` continuation produces: the log records it emitted, the
result stored via `finish` (if it reached `finish`), and the `Status` it
returned. -/
structure ContOut where
  logs : List LogEntry
  finished : Option Result
  status : Status
  deriving DecidableEq, Repr

/-- Models `Executor::finish`, per spec §4.1 step 5: the transformed payload is
stored as the invocation's Result and the continuation returns `Status::OK()`. -/
def finishOut (ds : DataSet) : ContOut :=
  ⟨[], some ⟨ds, .default⟩, .ok⟩

/-- A C++ exception reaching the `thenError` chain: `std::bad_alloc`, a
`std::runtime_error`, or any other `std::exception`, with its `what()` text. -/
inductive Fault where
  | badAlloc
  | runtimeError (what : String)
  | otherExn (what : String)
  deriving DecidableEq, Repr

/-- `what()` of the fault (`std::bad_alloc::what()` is its fixed text). -/
def Fault.what : Fault → String
  | .badAlloc => "std::bad_alloc"
  | .runtimeError m => m
  | .otherExn m => m

/-- State of the returned `folly::Future<Status>`: fulfilled with a `Status`
value, or exceptional, holding a fault. -/
inductive Outcome where
  | value (s : Status)
  | fault (f : Fault)
  deriving DecidableEq, Repr

/-- Whether the returned future is fulfilled with a `Status` value, as opposed
to holding an exception. -/
def Outcome.isValue : Outcome → Bool
  | .value _ => true
  | .fault _ => false

/-- `.thenError(folly::tag_t<std::bad_alloc>, ...)`: a `bad_alloc` in the chain
is replaced by a future fulfilled with `memoryExceededStatus()`; values and
other faults pass through. -/
def thenErrorBadAlloc : Outcome → Outcome
  | .fault .badAlloc => .value .memoryExceeded
  | o => o

/-- `.thenError(folly::tag_t<std::exception>, ...)`: any exception still in the
chain is replaced via `folly::makeFuture<Status>(std::runtime_error(e.what()))`,
i.e. by a future holding a `std::runtime_error` with the same `what()` text —
an exceptional future, not a fulfilled `Status`. -/
def thenErrorStdException : Outcome → Outcome
  | .fault f => .fault (.runtimeError f.what)
  | o => o

/-- Input to one execution, as seen by the continuation chain: either the
metadata call resolved to a `StatusOr` response, or a fault preempted the
continuation (thrown upstream, or locally, e.g. by `MemoryCheckGuard`). -/
inductive ExecInput (α : Type) where
  | response (r : StatusOr α)
  | fault (f : Fault)
  deriving DecidableEq, Repr

/-- Observable output of one execution: failure-path log records, the stored
Result if `finish` ran, and the final state of the returned future. -/
structure ExecOutput where
  logs : List LogEntry
  finished : Option Result
  outcome : Outcome
  deriving DecidableEq, Repr

/-- Runs one continuation under the shared
`thenValue ... .thenError(bad_alloc) ... .thenError(std::exception)` skeleton. -/
def runExec {α : Type} (cont : StatusOr α → ContOut) : ExecInput α → ExecOutput
  | .response r =>
    let c := cont r
    ⟨c.logs, c.finished, thenErrorStdException (thenErrorBadAlloc (.value c.status))⟩
  | .fault f =>
    ⟨[], none, thenErrorStdException (thenErrorBadAlloc (.fault f))⟩

/-- `session()->space()`: the active space descriptor. -/
structure SpaceInfo where
  id : Int
  deriving DecidableEq, Repr

/-- The caller's session, holding the active space. -/
structure Session where
  space : SpaceInfo
  deriving DecidableEq, Repr

/-- The `CreateTag` plan node's fields read by the executor. -/
structure CreateTagNode where
  name : String
  schema : Schema
  ifNotExists : Bool
  deriving DecidableEq, Repr

/-- The `DescTag` plan node's fields read by the executor. -/
structure DescTagNode where
  name : String
  deriving DecidableEq, Repr

/-- The `DropTag` plan node's fields read by the executor. -/
structure DropTagNode where
  name : String
  ifExists : Bool
  deriving DecidableEq, Repr

/-- The `ShowCreateTag` plan node's fields read by the executor. -/
structure ShowCreateTagNode where
  name : String
  deriving DecidableEq, Repr

/-- The `AlterTag` plan node's fields read by the executor; note it carries its
own space id (`aeNode->space()`). -/
structure AlterTagNode where
  space : Int
  name : String
  schemaItems : List AlterSchemaItem
  schemaProp : SchemaProp
  deriving DecidableEq, Repr

/-- Arguments handed to `MetaClient::createTagSchema`. -/
structure CreateTagRequest where
  space : Int
  name : String
  schema : Schema
  ifNotExists : Bool
  deriving DecidableEq, Repr

/-- Arguments handed to `MetaClient::getTagSchema`. -/
structure GetTagRequest where
  space : Int
  name : String
  deriving DecidableEq, Repr

/-- Arguments handed to `MetaClient::dropTagSchema`. -/
structure DropTagRequest where
  space : Int
  name : String
  ifExists : Bool
  deriving DecidableEq, Repr

/-- Arguments handed to `MetaClient::listTagSchemas`. -/
structure ListTagsRequest where
  space : Int
  deriving DecidableEq, Repr

/-- Arguments handed to `MetaClient::alterTagSchema`. -/
structure AlterTagRequest where
  space : Int
  name : String
  items : List AlterSchemaItem
  prop : SchemaProp
  deriving DecidableEq, Repr

/-- `CreateTagExecutor::execute` dispatch: `createTagSchema(spaceId,
ctNode->getName(), ctNode->getSchema(), ctNode->getIfNotExists())` with
`spaceId = qctx()->rctx()->session()->space().id`. -/
def createTagRequest (sess : Session) (node : CreateTagNode) : CreateTagRequest :=
  ⟨sess.space.id, node.name, node.schema, node.ifNotExists⟩

/-- `DescTagExecutor::execute` dispatch: `getTagSchema(spaceId, name)`. -/
def descTagRequest (sess : Session) (node : DescTagNode) : GetTagRequest :=
  ⟨sess.space.id, node.name⟩

/-- `DropTagExecutor::execute` dispatch: `dropTagSchema(spaceId, name, ifExists)`. -/
def dropTagRequest (sess : Session) (node : DropTagNode) : DropTagRequest :=
  ⟨sess.space.id, node.name, node.ifExists⟩

/-- `ShowTagsExecutor::execute` dispatch: `listTagSchemas(spaceId)`. -/
def showTagsRequest (sess : Session) : ListTagsRequest :=
  ⟨sess.space.id⟩

/-- `ShowCreateTagExecutor::execute` dispatch: `getTagSchema(spaceId, name)`. -/
def showCreateTagRequest (sess : Session) (node : ShowCreateTagNode) : GetTagRequest :=
  ⟨sess.space.id, node.name⟩

/-- `AlterTagExecutor::execute` dispatch: `alterTagSchema(aeNode->space(),
aeNode->getName(), aeNode->getSchemaItems(), aeNode->getSchemaProp())` — the
space id comes from the plan node, not from the session. -/
def alterTagRequest (node : AlterTagNode) : AlterTagRequest :=
  ⟨node.space, node.name, node.schemaItems, node.schemaProp⟩

/-- `CreateTagExecutor`'s `thenValue` continuation: on failure, log
(spaceId, name, `resp.status()`) and return `resp.status()`; on success,
return `Status::OK()`. -/
def contCreateTag (node : CreateTagNode) (spaceId : Int) :
    StatusOr TagID → ContOut
  | .failed s => ⟨[⟨spaceId, some node.name, s⟩], none, s⟩
  | .ok _ => ⟨[], none, .ok⟩

/-- `DescTagExecutor`'s `thenValue` continuation: validation as above; on a
successful response, `SchemaUtil::toDescSchema` (external formatter, passed as
`fmt`) is applied; if it fails, the code logs `resp.status()` — the field of
the *successful* response — and returns `ret.status()`; otherwise `finish`. -/
def contDescTag (fmt : Schema → StatusOr DataSet) (node : DescTagNode)
    (spaceId : Int) : StatusOr Schema → ContOut
  | .failed s => ⟨[⟨spaceId, some node.name, s⟩], none, s⟩
  | .ok schema =>
    match fmt schema with
    | .failed fs =>
      ⟨[⟨spaceId, some node.name, (StatusOr.ok (α := Schema) schema).statusField⟩],
        none, fs⟩
    | .ok ds => finishOut ds

/-- `DropTagExecutor`'s `thenValue` continuation. -/
def contDropTag (node : DropTagNode) (spaceId : Int) :
    StatusOr Bool → ContOut
  | .failed s => ⟨[⟨spaceId, some node.name, s⟩], none, s⟩
  | .ok _ => ⟨[], none, .ok⟩

/-- Lexicographic comparison of character sequences by code point, the order
`std::string::operator<` (and `std::set<std::string>`'s default comparator)
imposes on the byte strings exchanged with the metadata client. -/
def lexLt : List Char → List Char → Bool
  | _, [] => false
  | [], _ :: _ => true
  | c :: cs, d :: ds =>
    if c.toNat < d.toNat then true
    else if d.toNat < c.toNat then false
    else lexLt cs ds

/-- `operator<` on `std::string`, lexicographic. -/
def strLt (a b : String) : Bool :=
  lexLt a.data b.data

/-- `std::set<std::string>::emplace` into the model of the set's sorted,
duplicate-free element sequence. -/
def setInsert (a : String) : List String → List String
  | [] => [a]
  | b :: l =>
    if strLt a b then a :: b :: l
    else if strLt b a then b :: setInsert a l
    else b :: l

/-- The `orderTagNames` set of `ShowTagsExecutor`: every `tag.get_tag_name()`
emplaced into a `std::set<std::string>`, read back in its (ascending) order. -/
def orderTagNames (items : List TagItem) : List String :=
  items.foldl (fun acc t => setInsert t.tag_name acc) []

/-- `ShowTagsExecutor`'s `thenValue` continuation: validation, then a `DataSet`
with single column `"Name"` and one single-value row per element of
`orderTagNames`, finished via `ResultBuilder`. -/
def contShowTags (spaceId : Int) : StatusOr (List TagItem) → ContOut
  | .failed s => ⟨[⟨spaceId, none, s⟩], none, s⟩
  | .ok items =>
    finishOut ⟨["Name"], (orderTagNames items).map (fun n => [Value.str n])⟩

/-- `ShowCreateTagExecutor`'s `thenValue` continuation:
`SchemaUtil::toShowCreateSchema(true, name, resp.value())` is the external
formatter `fmt`; the format-failure branch again logs `resp.status()` of the
successful response while returning `ret.status()`. -/
def contShowCreateTag (fmt : Bool → String → Schema → StatusOr DataSet)
    (node : ShowCreateTagNode) (spaceId : Int) : StatusOr Schema → ContOut
  | .failed s => ⟨[⟨spaceId, some node.name, s⟩], none, s⟩
  | .ok schema =>
    match fmt true node.name schema with
    | .failed fs =>
      ⟨[⟨spaceId, some node.name, (StatusOr.ok (α := Schema) schema).statusField⟩],
        none, fs⟩
    | .ok ds => finishOut ds

/-- `AlterTagExecutor`'s `thenValue` continuation: the logged space id is
`aeNode->space()`. -/
def contAlterTag (node : AlterTagNode) : StatusOr Bool → ContOut
  | .failed s => ⟨[⟨node.space, some node.name, s⟩], none, s⟩
  | .ok _ => ⟨[], none, .ok⟩

/-- Full `CreateTagExecutor::execute` pipeline after dispatch. -/
def execCreateTag (sess : Session) (node : CreateTagNode) :
    ExecInput TagID → ExecOutput :=
  runExec (contCreateTag node sess.space.id)

/-- Full `DescTagExecutor::execute` pipeline after dispatch. -/
def execDescTag (fmt : Schema → StatusOr DataSet) (sess : Session)
    (node : DescTagNode) : ExecInput Schema → ExecOutput :=
  runExec (contDescTag fmt node sess.space.id)

/-- Full `DropTagExecutor::execute` pipeline after dispatch. -/
def execDropTag (sess : Session) (node : DropTagNode) :
    ExecInput Bool → ExecOutput :=
  runExec (contDropTag node sess.space.id)

/-- Full `ShowTagsExecutor::execute` pipeline after dispatch. -/
def execShowTags (sess : Session) : ExecInput (List TagItem) → ExecOutput :=
  runExec (contShowTags sess.space.id)

/-- Full `ShowCreateTagExecutor::execute` pipeline after dispatch. -/
def execShowCreateTag (fmt : Bool → String → Schema → StatusOr DataSet)
    (sess : Session) (node : ShowCreateTagNode) : ExecInput Schema → ExecOutput :=
  runExec (contShowCreateTag fmt node sess.space.id)

/-- Full `AlterTagExecutor::execute` pipeline after dispatch (the session is
listed as an input of the invocation but the body never reads it). -/
def execAlterTag (_sess : Session) (node : AlterTagNode) :
    ExecInput Bool → ExecOutput :=
  runExec (contAlterTag node)

/-- Comparing a character sequence with itself yields false. -/
theorem lexLt_irrefl (l : List Char) : lexLt l l = false := by
  induction l with
  | nil => rfl
  | cons c cs ih => simp [lexLt, ih]

/-- Lexicographic comparison is transitive. -/
theorem lexLt_trans {l₁ l₂ l₃ : List Char} (h₁ : lexLt l₁ l₂ = true)
    (h₂ : lexLt l₂ l₃ = true) : lexLt l₁ l₃ = true := by
  induction l₁ generalizing l₂ l₃ with
  | nil =>
    cases l₃ with
    | nil => cases l₂ <;> simp_all [lexLt]
    | cons e es => rfl
  | cons c cs ih =>
    cases l₂ with
    | nil => simp [lexLt] at h₁
    | cons d ds =>
      cases l₃ with
      | nil => simp [lexLt] at h₂
      | cons e es =>
        simp only [lexLt] at h₁ h₂ ⊢
        by_cases hcd : c.toNat < d.toNat
        · by_cases hde : d.toNat < e.toNat
          · rw [if_pos (Nat.lt_trans hcd hde)]
          · by_cases hed : e.toNat < d.toNat
            · rw [if_neg hde, if_pos hed] at h₂
              exact absurd h₂ (by simp)
            · have hdeEq : d.toNat = e.toNat :=
                Nat.le_antisymm (Nat.le_of_not_lt hed) (Nat.le_of_not_lt hde)
              rw [if_pos (hdeEq ▸ hcd)]
        · by_cases hdc : d.toNat < c.toNat
          · rw [if_neg hcd, if_pos hdc] at h₁
            exact absurd h₁ (by simp)
          · rw [if_neg hcd, if_neg hdc] at h₁
            have hcdEq : c.toNat = d.toNat :=
              Nat.le_antisymm (Nat.le_of_not_lt hdc) (Nat.le_of_not_lt hcd)
            by_cases hde : d.toNat < e.toNat
            · rw [if_pos (hcdEq ▸ hde)]
            · by_cases hed : e.toNat < d.toNat
              · rw [if_neg hde, if_pos hed] at h₂
                exact absurd h₂ (by simp)
              · rw [if_neg hde, if_neg hed] at h₂
                have hce : ¬ c.toNat < e.toNat := by omega
                have hec : ¬ e.toNat < c.toNat := by omega
                rw [if_neg hce, if_neg hec]
                exact ih h₁ h₂

/-- Lexicographic comparison is asymmetric. -/
theorem lexLt_asymm {l₁ l₂ : List Char} (h : lexLt l₁ l₂ = true) :
    lexLt l₂ l₁ = false := by
  cases hb : lexLt l₂ l₁ with
  | false => rfl
  | true =>
    have ht := lexLt_trans h hb
    rw [lexLt_irrefl] at ht
    exact absurd ht (by simp)

/-- Character sequences incomparable in both directions are equal. -/
theorem lexLt_eq_of_not_lt {l₁ l₂ : List Char} (h₁ : lexLt l₁ l₂ = false)
    (h₂ : lexLt l₂ l₁ = false) : l₁ = l₂ := by
  induction l₁ generalizing l₂ with
  | nil =>
    cases l₂ with
    | nil => rfl
    | cons d ds => simp [lexLt] at h₁
  | cons c cs ih =>
    cases l₂ with
    | nil => simp [lexLt] at h₂
    | cons d ds =>
      simp only [lexLt] at h₁ h₂
      by_cases hcd : c.toNat < d.toNat
      · rw [if_pos hcd] at h₁
        exact absurd h₁ (by simp)
      · by_cases hdc : d.toNat < c.toNat
        · rw [if_neg hcd, if_pos hdc] at h₁
          rw [if_pos hdc] at h₂
          exact absurd h₂ (by simp)
        · rw [if_neg hcd, if_neg hdc] at h₁
          rw [if_neg hdc, if_neg hcd] at h₂
          have hnat : c.toNat = d.toNat :=
            Nat.le_antisymm (Nat.le_of_not_lt hdc) (Nat.le_of_not_lt hcd)
          have hc : c = d := Char.eq_of_val_eq (by
            apply UInt32.eq_of_val_eq
            exact Fin.ext hnat)
          rw [hc, ih h₁ h₂]

/-- String comparison with itself yields false. -/
theorem strLt_irrefl (a : String) : strLt a a = false :=
  lexLt_irrefl a.data

/-- String comparison is transitive. -/
theorem strLt_trans {a b c : String} (h₁ : strLt a b = true)
    (h₂ : strLt b c = true) : strLt a c = true :=
  lexLt_trans h₁ h₂

/-- String comparison is asymmetric. -/
theorem strLt_asymm {a b : String} (h : strLt a b = true) :
    strLt b a = false :=
  lexLt_asymm h

/-- Strings incomparable in both directions are equal. -/
theorem strLt_eq_of_not_lt {a b : String} (h₁ : strLt a b = false)
    (h₂ : strLt b a = false) : a = b := by
  cases a with
  | mk da =>
    cases b with
    | mk db => exact congrArg String.mk (lexLt_eq_of_not_lt h₁ h₂)

/-- `strLt` is irreflexive as a relation. -/
instance : IsIrrefl String (fun a b => strLt a b = true) :=
  ⟨fun a h => by rw [strLt_irrefl] at h; exact absurd h (by simp)⟩

/-- The reflexive closure of `strLt` is antisymmetric. -/
instance : IsAntisymm String (fun a b => strLt a b = true ∨ a = b) := by
  refine ⟨fun a b hab hba => ?_⟩
  rcases hab with hab | rfl
  · rcases hba with hba | rfl
    · rw [strLt_asymm hab] at hba
      exact absurd hba (by simp)
    · rfl
  · rfl

/-- Membership in the modelled set after an emplace. -/
theorem setInsert_mem (a b : String) (l : List String) :
    b ∈ setInsert a l ↔ b = a ∨ b ∈ l := by
  induction l with
  | nil => simp [setInsert]
  | cons c l ih =>
    by_cases h1 : strLt a c = true
    · simp [setInsert, h1]
    · by_cases h2 : strLt c a = true
      · simp [setInsert, h1, h2, ih]
        tauto
      · have hac : a = c := strLt_eq_of_not_lt
          (Bool.not_eq_true _ ▸ h1) (Bool.not_eq_true _ ▸ h2)
        subst hac
        simp [setInsert, h1, h2]

/-- An emplace preserves the strict ascending order of the modelled set. -/
theorem setInsert_sorted (a : String) (l : List String)
    (h : l.Sorted (fun x y => strLt x y = true)) :
    (setInsert a l).Sorted (fun x y => strLt x y = true) := by
  induction l with
  | nil => simp [setInsert]
  | cons c l ih =>
    rw [List.sorted_cons] at h
    obtain ⟨hc, hl⟩ := h
    by_cases h1 : strLt a c = true
    · rw [setInsert, if_pos h1, List.sorted_cons]
      refine ⟨?_, List.sorted_cons.mpr ⟨hc, hl⟩⟩
      intro b hb
      rcases List.mem_cons.mp hb with rfl | hb
      · exact h1
      · exact strLt_trans h1 (hc b hb)
    · by_cases h2 : strLt c a = true
      · rw [setInsert, if_neg h1, if_pos h2, List.sorted_cons]
        refine ⟨?_, ih hl⟩
        intro b hb
        rcases (setInsert_mem a b l).mp hb with rfl | hb
        · exact h2
        · exact hc b hb
      · rw [setInsert, if_neg h1, if_neg h2]
        exact List.sorted_cons.mpr ⟨hc, hl⟩

/-- The fold of emplaces keeps the accumulator sorted. -/
theorem foldl_setInsert_sorted (items : List TagItem) (acc : List String)
    (h : acc.Sorted (fun x y => strLt x y = true)) :
    (items.foldl (fun acc t => setInsert t.tag_name acc) acc).Sorted
      (fun x y => strLt x y = true) := by
  induction items generalizing acc with
  | nil => simpa using h
  | cons t items ih => exact ih _ (setInsert_sorted _ _ h)

/-- Membership after the fold of emplaces: accumulator plus the items' names. -/
theorem foldl_setInsert_mem (items : List TagItem) (acc : List String) (b : String) :
    b ∈ items.foldl (fun acc t => setInsert t.tag_name acc) acc ↔
      b ∈ acc ∨ b ∈ items.map TagItem.tag_name := by
  induction items generalizing acc with
  | nil => simp
  | cons t items ih =>
    rw [List.foldl_cons, ih]
    simp [setInsert_mem]
    tauto

/-- The executor's set of tag names is sorted strictly ascending. -/
theorem orderTagNames_sorted (items : List TagItem) :
    (orderTagNames items).Sorted (fun x y => strLt x y = true) :=
  foldl_setInsert_sorted items [] (by simp)

/-- The executor's set of tag names holds exactly the response's names. -/
theorem orderTagNames_mem (items : List TagItem) (b : String) :
    b ∈ orderTagNames items ↔ b ∈ items.map TagItem.tag_name := by
  rw [orderTagNames, foldl_setInsert_mem]
  simp

/-- The executor's set of tag names holds no duplicates. -/
theorem orderTagNames_nodup (items : List TagItem) :
    (orderTagNames items).Nodup :=
  (orderTagNames_sorted items).nodup

/-- Responses with the same underlying name set produce the same ordered name
list, regardless of order and multiplicity. -/
theorem orderTagNames_eq_of_mem_iff (items₁ items₂ : List TagItem)
    (h : ∀ b, b ∈ items₁.map TagItem.tag_name ↔ b ∈ items₂.map TagItem.tag_name) :
    orderTagNames items₁ = orderTagNames items₂ := by
  have hmem : ∀ b, b ∈ orderTagNames items₁ ↔ b ∈ orderTagNames items₂ := by
    intro b
    rw [orderTagNames_mem, orderTagNames_mem, h]
  have hperm : List.Perm (orderTagNames items₁) (orderTagNames items₂) :=
    (List.perm_ext_iff_of_nodup (orderTagNames_nodup items₁)
      (orderTagNames_nodup items₂)).mpr hmem
  have hs₁ : (orderTagNames items₁).Sorted (fun x y => strLt x y = true ∨ x = y) :=
    (orderTagNames_sorted items₁).imp (fun h => Or.inl h)
  have hs₂ : (orderTagNames items₂).Sorted (fun x y => strLt x y = true ∨ x = y) :=
    (orderTagNames_sorted items₂).imp (fun h => Or.inl h)
  exact List.eq_of_perm_of_sorted hperm hs₁ hs₂

/-- C1: for every ShowTags execution whose metadata call succeeds, the stored
table has exactly one row per distinct tag name of the authority's response —
singleton string rows, deduplicated and sorted ascending lexicographically —
and the whole output is invariant under reordering and duplication of the
names in the response. -/
theorem C1_show_tags_rows_sorted_dedup (sess : Session) (items : List TagItem) :
    ∃ r : Result,
      (execShowTags sess (.response (.ok items))).finished = some r ∧
      r.data.rows = (orderTagNames items).map (fun n => [Value.str n]) ∧
      (orderTagNames items).Sorted (fun x y => strLt x y = true) ∧
      (orderTagNames items).Nodup ∧
      (∀ n, n ∈ orderTagNames items ↔ n ∈ items.map TagItem.tag_name) ∧
      (∀ items₂ : List TagItem,
        (∀ n, n ∈ items₂.map TagItem.tag_name ↔ n ∈ items.map TagItem.tag_name) →
        execShowTags sess (.response (.ok items₂)) =
          execShowTags sess (.response (.ok items))) := by
  refine ⟨⟨⟨["Name"], (orderTagNames items).map (fun n => [Value.str n])⟩, .default⟩,
    rfl, rfl, orderTagNames_sorted items, orderTagNames_nodup items,
    orderTagNames_mem items, ?_⟩
  intro items₂ h
  have hnames := orderTagNames_eq_of_mem_iff items₂ items h
  simp [execShowTags, runExec, contShowTags, finishOut, hnames]

/-- C1 witness: the spec's example — authority names b, a, a, c give exactly
the rows a, b, c, equal to the output on the already-sorted distinct list. -/
theorem C1_show_tags_rows_sorted_dedup_witness :
    execShowTags ⟨⟨7⟩⟩ (.response (.ok
        [⟨1, "b", 0, ⟨[], none⟩⟩, ⟨2, "a", 0, ⟨[], none⟩⟩,
         ⟨3, "a", 1, ⟨[], none⟩⟩, ⟨4, "c", 0, ⟨[], none⟩⟩])) =
      execShowTags ⟨⟨7⟩⟩ (.response (.ok
        [⟨5, "a", 0, ⟨[], none⟩⟩, ⟨6, "b", 0, ⟨[], none⟩⟩,
         ⟨8, "c", 0, ⟨[], none⟩⟩])) ∧
    (execShowTags ⟨⟨7⟩⟩ (.response (.ok
        [⟨1, "b", 0, ⟨[], none⟩⟩, ⟨2, "a", 0, ⟨[], none⟩⟩,
         ⟨3, "a", 1, ⟨[], none⟩⟩, ⟨4, "c", 0, ⟨[], none⟩⟩]))).finished =
      some ⟨⟨["Name"], [[.str "a"], [.str "b"], [.str "c"]]⟩, .default⟩ := by
  obtain ⟨r, hr, hrows, -, -, -, hext⟩ := C1_show_tags_rows_sorted_dedup ⟨⟨7⟩⟩
    [⟨5, "a", 0, ⟨[], none⟩⟩, ⟨6, "b", 0, ⟨[], none⟩⟩, ⟨8, "c", 0, ⟨[], none⟩⟩]
  refine ⟨hext _ ?_, by decide⟩
  intro n
  simp
  tauto

/-- C2 counterexample: a generic local fault with description "boom" leaves
CreateTag's pipeline as an exceptional future holding a runtime_error — not
fulfilled with any typed Status value, contradicting the claim that every such
fault is converted to a status and no fault crosses the boundary. -/
theorem C2_generic_fault_crosses_boundary :
    (execCreateTag ⟨⟨1⟩⟩ ⟨"t", ⟨[], none⟩, false⟩
        (.fault (.otherExn "boom"))).outcome = .fault (.runtimeError "boom") ∧
    (execCreateTag ⟨⟨1⟩⟩ ⟨"t", ⟨[], none⟩, false⟩
        (.fault (.otherExn "boom"))).outcome.isValue = false :=
  ⟨rfl, rfl⟩

/-- C2 (amended): in every command executor, a bad_alloc reaching the error
handlers is converted to the fixed memory-exceeded status value, while any
other std::exception is caught and re-emitted as a runtime_error fault carrying
the original fault's description text — a normalized exceptional future handed
to the caller, not a conversion to a typed status. -/
theorem C2_fault_normalization (fmtD : Schema → StatusOr DataSet)
    (fmtS : Bool → String → Schema → StatusOr DataSet) (sess : Session)
    (cn : CreateTagNode) (dn : DescTagNode) (pn : DropTagNode)
    (sn : ShowCreateTagNode) (an : AlterTagNode) (m : String) :
    ((execCreateTag sess cn (.fault .badAlloc)).outcome = .value .memoryExceeded ∧
      (execCreateTag sess cn (.fault (.otherExn m))).outcome =
        .fault (.runtimeError m) ∧
      (execCreateTag sess cn (.fault (.runtimeError m))).outcome =
        .fault (.runtimeError m)) ∧
    ((execDescTag fmtD sess dn (.fault .badAlloc)).outcome = .value .memoryExceeded ∧
      (execDescTag fmtD sess dn (.fault (.otherExn m))).outcome =
        .fault (.runtimeError m) ∧
      (execDescTag fmtD sess dn (.fault (.runtimeError m))).outcome =
        .fault (.runtimeError m)) ∧
    ((execDropTag sess pn (.fault .badAlloc)).outcome = .value .memoryExceeded ∧
      (execDropTag sess pn (.fault (.otherExn m))).outcome =
        .fault (.runtimeError m) ∧
      (execDropTag sess pn (.fault (.runtimeError m))).outcome =
        .fault (.runtimeError m)) ∧
    ((execShowTags sess (.fault .badAlloc)).outcome = .value .memoryExceeded ∧
      (execShowTags sess (.fault (.otherExn m))).outcome =
        .fault (.runtimeError m) ∧
      (execShowTags sess (.fault (.runtimeError m))).outcome =
        .fault (.runtimeError m)) ∧
    ((execShowCreateTag fmtS sess sn (.fault .badAlloc)).outcome =
        .value .memoryExceeded ∧
      (execShowCreateTag fmtS sess sn (.fault (.otherExn m))).outcome =
        .fault (.runtimeError m) ∧
      (execShowCreateTag fmtS sess sn (.fault (.runtimeError m))).outcome =
        .fault (.runtimeError m)) ∧
    ((execAlterTag sess an (.fault .badAlloc)).outcome = .value .memoryExceeded ∧
      (execAlterTag sess an (.fault (.otherExn m))).outcome =
        .fault (.runtimeError m) ∧
      (execAlterTag sess an (.fault (.runtimeError m))).outcome =
        .fault (.runtimeError m)) :=
  ⟨⟨rfl, rfl, rfl⟩, ⟨rfl, rfl, rfl⟩, ⟨rfl, rfl, rfl⟩, ⟨rfl, rfl, rfl⟩,
    ⟨rfl, rfl, rfl⟩, ⟨rfl, rfl, rfl⟩⟩

/-- Pipelines whose continuation only stores rows alongside an OK status never
pair a stored result with a non-OK outcome. -/
theorem runExec_rows_iff_ok {α : Type} (cont : StatusOr α → ContOut)
    (h : ∀ r, (cont r).finished = none ∨ (cont r).status = .ok)
    (i : ExecInput α) :
    (runExec cont i).finished = none ∨ (runExec cont i).outcome = .value .ok := by
  cases i with
  | fault f => exact Or.inl rfl
  | response r =>
    rcases h r with hf | hs
    · left
      simp [runExec, hf]
    · right
      simp [runExec, hs, thenErrorBadAlloc, thenErrorStdException]

/-- CreateTag's continuation never stores rows. -/
theorem contCreateTag_rows_ok (cn : CreateTagNode) (sp : Int) :
    ∀ r, (contCreateTag cn sp r).finished = none ∨
      (contCreateTag cn sp r).status = .ok := by
  intro r
  cases r <;> exact Or.inl rfl

/-- DescTag's continuation stores rows only via finish, which returns OK. -/
theorem contDescTag_rows_ok (fmt : Schema → StatusOr DataSet) (dn : DescTagNode)
    (sp : Int) :
    ∀ r, (contDescTag fmt dn sp r).finished = none ∨
      (contDescTag fmt dn sp r).status = .ok := by
  intro r
  cases r with
  | failed s => exact Or.inl rfl
  | ok sch =>
    cases hf : fmt sch with
    | failed fs => left; simp [contDescTag, hf]
    | ok ds => right; simp [contDescTag, hf, finishOut]

/-- DropTag's continuation never stores rows. -/
theorem contDropTag_rows_ok (pn : DropTagNode) (sp : Int) :
    ∀ r, (contDropTag pn sp r).finished = none ∨
      (contDropTag pn sp r).status = .ok := by
  intro r
  cases r <;> exact Or.inl rfl

/-- ShowTags' continuation stores rows only via finish, which returns OK. -/
theorem contShowTags_rows_ok (sp : Int) :
    ∀ r, (contShowTags sp r).finished = none ∨
      (contShowTags sp r).status = .ok := by
  intro r
  cases r with
  | failed s => exact Or.inl rfl
  | ok items => right; simp [contShowTags, finishOut]

/-- ShowCreateTag's continuation stores rows only via finish, which returns OK. -/
theorem contShowCreateTag_rows_ok (fmt : Bool → String → Schema → StatusOr DataSet)
    (sn : ShowCreateTagNode) (sp : Int) :
    ∀ r, (contShowCreateTag fmt sn sp r).finished = none ∨
      (contShowCreateTag fmt sn sp r).status = .ok := by
  intro r
  cases r with
  | failed s => exact Or.inl rfl
  | ok sch =>
    cases hf : fmt true sn.name sch with
    | failed fs => left; simp [contShowCreateTag, hf]
    | ok ds => right; simp [contShowCreateTag, hf, finishOut]

/-- AlterTag's continuation never stores rows. -/
theorem contAlterTag_rows_ok (an : AlterTagNode) :
    ∀ r, (contAlterTag an r).finished = none ∨
      (contAlterTag an r).status = .ok := by
  intro r
  cases r <;> exact Or.inl rfl

/-- C3: when the metadata response carries a failure status, every one of the
six executors returns exactly that status, unmodified, with no stored rows;
and on every execution path a stored row table and a non-OK outcome are
mutually exclusive. -/
theorem C3_authority_failure_propagated (fmtD : Schema → StatusOr DataSet)
    (fmtS : Bool → String → Schema → StatusOr DataSet) (sess : Session)
    (cn : CreateTagNode) (dn : DescTagNode) (pn : DropTagNode)
    (sn : ShowCreateTagNode) (an : AlterTagNode) (s : Status)
    (iC : ExecInput TagID) (iD iS : ExecInput Schema) (iP iA : ExecInput Bool)
    (iT : ExecInput (List TagItem)) :
    ((execCreateTag sess cn (.response (.failed s))).outcome = .value s ∧
      (execCreateTag sess cn (.response (.failed s))).finished = none) ∧
    ((execDescTag fmtD sess dn (.response (.failed s))).outcome = .value s ∧
      (execDescTag fmtD sess dn (.response (.failed s))).finished = none) ∧
    ((execDropTag sess pn (.response (.failed s))).outcome = .value s ∧
      (execDropTag sess pn (.response (.failed s))).finished = none) ∧
    ((execShowTags sess (.response (.failed s))).outcome = .value s ∧
      (execShowTags sess (.response (.failed s))).finished = none) ∧
    ((execShowCreateTag fmtS sess sn (.response (.failed s))).outcome = .value s ∧
      (execShowCreateTag fmtS sess sn (.response (.failed s))).finished = none) ∧
    ((execAlterTag sess an (.response (.failed s))).outcome = .value s ∧
      (execAlterTag sess an (.response (.failed s))).finished = none) ∧
    ((execCreateTag sess cn iC).finished = none ∨
      (execCreateTag sess cn iC).outcome = .value .ok) ∧
    ((execDescTag fmtD sess dn iD).finished = none ∨
      (execDescTag fmtD sess dn iD).outcome = .value .ok) ∧
    ((execDropTag sess pn iP).finished = none ∨
      (execDropTag sess pn iP).outcome = .value .ok) ∧
    ((execShowTags sess iT).finished = none ∨
      (execShowTags sess iT).outcome = .value .ok) ∧
    ((execShowCreateTag fmtS sess sn iS).finished = none ∨
      (execShowCreateTag fmtS sess sn iS).outcome = .value .ok) ∧
    ((execAlterTag sess an iA).finished = none ∨
      (execAlterTag sess an iA).outcome = .value .ok) :=
  ⟨⟨rfl, rfl⟩, ⟨rfl, rfl⟩, ⟨rfl, rfl⟩, ⟨rfl, rfl⟩, ⟨rfl, rfl⟩, ⟨rfl, rfl⟩,
    runExec_rows_iff_ok _ (contCreateTag_rows_ok cn sess.space.id) iC,
    runExec_rows_iff_ok _ (contDescTag_rows_ok fmtD dn sess.space.id) iD,
    runExec_rows_iff_ok _ (contDropTag_rows_ok pn sess.space.id) iP,
    runExec_rows_iff_ok _ (contShowTags_rows_ok sess.space.id) iT,
    runExec_rows_iff_ok _ (contShowCreateTag_rows_ok fmtS sn sess.space.id) iS,
    runExec_rows_iff_ok _ (contAlterTag_rows_ok an) iA⟩

/-- C4: a succeeding CreateTag, DropTag, or AlterTag execution is an empty
success — OK outcome, no log records, and no stored row table. -/
theorem C4_mutation_success_empty (sess : Session) (cn : CreateTagNode)
    (pn : DropTagNode) (an : AlterTagNode) (t : TagID) (b b' : Bool) :
    execCreateTag sess cn (.response (.ok t)) = ⟨[], none, .value .ok⟩ ∧
    execDropTag sess pn (.response (.ok b)) = ⟨[], none, .value .ok⟩ ∧
    execAlterTag sess an (.response (.ok b')) = ⟨[], none, .value .ok⟩ :=
  ⟨rfl, rfl, rfl⟩

/-- C5: when the metadata call succeeds but the schema formatter fails on the
payload, DescTag and ShowCreateTag return the formatter's failure status and
store no rows. -/
theorem C5_format_failure_no_rows (fmtD : Schema → StatusOr DataSet)
    (fmtS : Bool → String → Schema → StatusOr DataSet) (sess : Session)
    (dn : DescTagNode) (sn : ShowCreateTagNode) (sch sch' : Schema)
    (fs fs' : Status) (hD : fmtD sch = .failed fs)
    (hS : fmtS true sn.name sch' = .failed fs') :
    (execDescTag fmtD sess dn (.response (.ok sch))).outcome = .value fs ∧
    (execDescTag fmtD sess dn (.response (.ok sch))).finished = none ∧
    (execShowCreateTag fmtS sess sn (.response (.ok sch'))).outcome = .value fs' ∧
    (execShowCreateTag fmtS sess sn (.response (.ok sch'))).finished = none := by
  refine ⟨?_, ?_, ?_, ?_⟩ <;>
    simp [execDescTag, execShowCreateTag, runExec, contDescTag, contShowCreateTag,
      hD, hS, thenErrorBadAlloc, thenErrorStdException]

/-- C5 witness: concrete failing formatters on concrete payloads. -/
theorem C5_format_failure_no_rows_witness :
    (execDescTag (fun _ => .failed (.error "bad rows")) ⟨⟨1⟩⟩ ⟨"t"⟩
        (.response (.ok ⟨[], none⟩))).outcome = .value (.error "bad rows") ∧
    (execDescTag (fun _ => .failed (.error "bad rows")) ⟨⟨1⟩⟩ ⟨"t"⟩
        (.response (.ok ⟨[], none⟩))).finished = none ∧
    (execShowCreateTag (fun _ _ _ => .failed (.error "bad text")) ⟨⟨1⟩⟩ ⟨"p"⟩
        (.response (.ok ⟨[], none⟩))).outcome = .value (.error "bad text") ∧
    (execShowCreateTag (fun _ _ _ => .failed (.error "bad text")) ⟨⟨1⟩⟩ ⟨"p"⟩
        (.response (.ok ⟨[], none⟩))).finished = none :=
  C5_format_failure_no_rows (fun _ => .failed (.error "bad rows"))
    (fun _ _ _ => .failed (.error "bad text")) ⟨⟨1⟩⟩ ⟨"t"⟩ ⟨"p"⟩
    ⟨[], none⟩ ⟨[], none⟩ (.error "bad rows") (.error "bad text") rfl rfl

/-- C6: evaluation at the failing input — DescTag with a succeeding metadata
call and a failing formatter logs the status field of the successful response
(OK under the modelled accessor) while the command returns the formatter's
failure status, so no log record on this failure path carries the status the
command returns. -/
theorem C6_format_failure_logs_wrong_status :
    (execDescTag (fun _ => .failed (.error "fmt boom")) ⟨⟨1⟩⟩ ⟨"t"⟩
        (.response (.ok ⟨[], none⟩))).outcome = .value (.error "fmt boom") ∧
    (execDescTag (fun _ => .failed (.error "fmt boom")) ⟨⟨1⟩⟩ ⟨"t"⟩
        (.response (.ok ⟨[], none⟩))).logs = [⟨1, some "t", .ok⟩] ∧
    Status.ok ≠ Status.error "fmt boom" :=
  ⟨rfl, rfl, by decide⟩

/-- CreateTag failure logs carry the session's space id. -/
theorem execCreateTag_log_space (sess : Session) (cn : CreateTagNode)
    (i : ExecInput TagID) :
    ∀ e ∈ (execCreateTag sess cn i).logs, e.spaceId = sess.space.id := by
  cases i with
  | fault f =>
    intro e he
    simp [execCreateTag, runExec] at he
  | response r =>
    cases r with
    | failed s =>
      intro e he
      simp [execCreateTag, runExec, contCreateTag] at he
      rw [he]
    | ok v =>
      intro e he
      simp [execCreateTag, runExec, contCreateTag] at he

/-- DescTag failure logs carry the session's space id. -/
theorem execDescTag_log_space (fmt : Schema → StatusOr DataSet) (sess : Session)
    (dn : DescTagNode) (i : ExecInput Schema) :
    ∀ e ∈ (execDescTag fmt sess dn i).logs, e.spaceId = sess.space.id := by
  cases i with
  | fault f =>
    intro e he
    simp [execDescTag, runExec] at he
  | response r =>
    cases r with
    | failed s =>
      intro e he
      simp [execDescTag, runExec, contDescTag] at he
      rw [he]
    | ok sch =>
      intro e he
      cases hf : fmt sch with
      | failed fs =>
        simp [execDescTag, runExec, contDescTag, hf] at he
        rw [he]
      | ok ds =>
        simp [execDescTag, runExec, contDescTag, hf, finishOut] at he

/-- DropTag failure logs carry the session's space id. -/
theorem execDropTag_log_space (sess : Session) (pn : DropTagNode)
    (i : ExecInput Bool) :
    ∀ e ∈ (execDropTag sess pn i).logs, e.spaceId = sess.space.id := by
  cases i with
  | fault f =>
    intro e he
    simp [execDropTag, runExec] at he
  | response r =>
    cases r with
    | failed s =>
      intro e he
      simp [execDropTag, runExec, contDropTag] at he
      rw [he]
    | ok v =>
      intro e he
      simp [execDropTag, runExec, contDropTag] at he

/-- ShowTags failure logs carry the session's space id. -/
theorem execShowTags_log_space (sess : Session) (i : ExecInput (List TagItem)) :
    ∀ e ∈ (execShowTags sess i).logs, e.spaceId = sess.space.id := by
  cases i with
  | fault f =>
    intro e he
    simp [execShowTags, runExec] at he
  | response r =>
    cases r with
    | failed s =>
      intro e he
      simp [execShowTags, runExec, contShowTags] at he
      rw [he]
    | ok items =>
      intro e he
      simp [execShowTags, runExec, contShowTags, finishOut] at he

/-- ShowCreateTag failure logs carry the session's space id. -/
theorem execShowCreateTag_log_space (fmt : Bool → String → Schema → StatusOr DataSet)
    (sess : Session) (sn : ShowCreateTagNode) (i : ExecInput Schema) :
    ∀ e ∈ (execShowCreateTag fmt sess sn i).logs, e.spaceId = sess.space.id := by
  cases i with
  | fault f =>
    intro e he
    simp [execShowCreateTag, runExec] at he
  | response r =>
    cases r with
    | failed s =>
      intro e he
      simp [execShowCreateTag, runExec, contShowCreateTag] at he
      rw [he]
    | ok sch =>
      intro e he
      cases hf : fmt true sn.name sch with
      | failed fs =>
        simp [execShowCreateTag, runExec, contShowCreateTag, hf] at he
        rw [he]
      | ok ds =>
        simp [execShowCreateTag, runExec, contShowCreateTag, hf, finishOut] at he

/-- AlterTag failure logs carry the plan node's space id. -/
theorem execAlterTag_log_space (sess : Session) (an : AlterTagNode)
    (i : ExecInput Bool) :
    ∀ e ∈ (execAlterTag sess an i).logs, e.spaceId = an.space := by
  cases i with
  | fault f =>
    intro e he
    simp [execAlterTag, runExec] at he
  | response r =>
    cases r with
    | failed s =>
      intro e he
      simp [execAlterTag, runExec, contAlterTag] at he
      rw [he]
    | ok v =>
      intro e he
      simp [execAlterTag, runExec, contAlterTag] at he

/-- C7 counterexample: an AlterTag execution under a session whose active
space id is 1 and a plan node carrying space id 2 sends 2 in the request and
logs 2 on failure — the space id is not resolved from the caller's session. -/
theorem C7_alter_space_not_from_session :
    (alterTagRequest ⟨2, "t", [], ⟨none, none, none⟩⟩).space = 2 ∧
    (execAlterTag ⟨⟨1⟩⟩ ⟨2, "t", [], ⟨none, none, none⟩⟩
        (.response (.failed (.error "e")))).logs = [⟨2, some "t", .error "e"⟩] ∧
    (⟨⟨1⟩⟩ : Session).space.id ≠
      (alterTagRequest ⟨2, "t", [], ⟨none, none, none⟩⟩).space :=
  ⟨rfl, rfl, by decide⟩

/-- C7 (amended): each executor resolves one space id — from the caller's
session for CreateTag, DescTag, DropTag, ShowTags, and ShowCreateTag, but from
the plan node for AlterTag — and that same id is used in the metadata request
and in every failure log of the execution. -/
theorem C7_space_id_constant (fmtD : Schema → StatusOr DataSet)
    (fmtS : Bool → String → Schema → StatusOr DataSet) (sess : Session)
    (cn : CreateTagNode) (dn : DescTagNode) (pn : DropTagNode)
    (sn : ShowCreateTagNode) (an : AlterTagNode)
    (iC : ExecInput TagID) (iD iS : ExecInput Schema) (iP iA : ExecInput Bool)
    (iT : ExecInput (List TagItem)) :
    ((createTagRequest sess cn).space = sess.space.id ∧
      ∀ e ∈ (execCreateTag sess cn iC).logs,
        e.spaceId = (createTagRequest sess cn).space) ∧
    ((descTagRequest sess dn).space = sess.space.id ∧
      ∀ e ∈ (execDescTag fmtD sess dn iD).logs,
        e.spaceId = (descTagRequest sess dn).space) ∧
    ((dropTagRequest sess pn).space = sess.space.id ∧
      ∀ e ∈ (execDropTag sess pn iP).logs,
        e.spaceId = (dropTagRequest sess pn).space) ∧
    ((showTagsRequest sess).space = sess.space.id ∧
      ∀ e ∈ (execShowTags sess iT).logs,
        e.spaceId = (showTagsRequest sess).space) ∧
    ((showCreateTagRequest sess sn).space = sess.space.id ∧
      ∀ e ∈ (execShowCreateTag fmtS sess sn iS).logs,
        e.spaceId = (showCreateTagRequest sess sn).space) ∧
    ((alterTagRequest an).space = an.space ∧
      ∀ e ∈ (execAlterTag sess an iA).logs,
        e.spaceId = (alterTagRequest an).space) :=
  ⟨⟨rfl, execCreateTag_log_space sess cn iC⟩,
    ⟨rfl, execDescTag_log_space fmtD sess dn iD⟩,
    ⟨rfl, execDropTag_log_space sess pn iP⟩,
    ⟨rfl, execShowTags_log_space sess iT⟩,
    ⟨rfl, execShowCreateTag_log_space fmtS sess sn iS⟩,
    ⟨rfl, execAlterTag_log_space sess an iA⟩⟩

/-- C7 witness: a concrete failure log entry of CreateTag carries the same
space id the request was built with. -/
theorem C7_space_id_constant_witness :
    (⟨1, some "t", Status.error "e"⟩ : LogEntry).spaceId =
      (createTagRequest ⟨⟨1⟩⟩ ⟨"t", ⟨[], none⟩, false⟩).space ∧
    (alterTagRequest ⟨2, "u", [], ⟨none, none, none⟩⟩).space = 2 := by
  have h := C7_space_id_constant (fun _ => .failed (.error "x"))
    (fun _ _ _ => .failed (.error "x")) ⟨⟨1⟩⟩ ⟨"t", ⟨[], none⟩, false⟩ ⟨"d"⟩
    ⟨"r", false⟩ ⟨"s"⟩ ⟨2, "u", [], ⟨none, none, none⟩⟩
    (.response (.failed (.error "e"))) (.response (.failed (.error "e")))
    (.response (.failed (.error "e"))) (.response (.failed (.error "e")))
    (.response (.failed (.error "e"))) (.response (.failed (.error "e")))
  exact ⟨h.1.2 ⟨1, some "t", .error "e"⟩ (by decide), h.2.2.2.2.2.1⟩

/-- C8: the AlterTag request forwards the plan node's ordered edit-operation
list, name, schema options, and space unchanged — in particular the item list
is passed through with its order and multiplicity intact. -/
theorem C8_alter_edits_forwarded (an : AlterTagNode) :
    (alterTagRequest an).items = an.schemaItems ∧
    (alterTagRequest an).name = an.name ∧
    (alterTagRequest an).prop = an.schemaProp ∧
    (alterTagRequest an).space = an.space :=
  ⟨rfl, rfl, rfl, rfl⟩

/-- C9: DescTag and ShowTags are deterministic — two executions given equal
sessions, plan nodes, formatters, and metadata responses produce equal outputs
(same logs, same stored table, same outcome). -/
theorem C9_desc_show_deterministic (fmt₁ fmt₂ : Schema → StatusOr DataSet)
    (s₁ s₂ : Session) (n₁ n₂ : DescTagNode) (i₁ i₂ : ExecInput Schema)
    (j₁ j₂ : ExecInput (List TagItem)) (hf : fmt₁ = fmt₂) (hs : s₁ = s₂)
    (hn : n₁ = n₂) (hi : i₁ = i₂) (hj : j₁ = j₂) :
    execDescTag fmt₁ s₁ n₁ i₁ = execDescTag fmt₂ s₂ n₂ i₂ ∧
    execShowTags s₁ j₁ = execShowTags s₂ j₂ := by
  subst hf
  subst hs
  subst hn
  subst hi
  subst hj
  exact ⟨rfl, rfl⟩

/-- C9 witness: repeating both executions on one concrete response yields the
same result both times. -/
theorem C9_desc_show_deterministic_witness :
    execDescTag (fun _ => .failed (.error "x")) ⟨⟨3⟩⟩ ⟨"t"⟩
        (.response (.ok ⟨[⟨"p", "string"⟩], none⟩)) =
      execDescTag (fun _ => .failed (.error "x")) ⟨⟨3⟩⟩ ⟨"t"⟩
        (.response (.ok ⟨[⟨"p", "string"⟩], none⟩)) ∧
    execShowTags ⟨⟨3⟩⟩ (.response (.ok [⟨1, "a", 0, ⟨[], none⟩⟩])) =
      execShowTags ⟨⟨3⟩⟩ (.response (.ok [⟨1, "a", 0, ⟨[], none⟩⟩])) :=
  C9_desc_show_deterministic (fun _ => .failed (.error "x"))
    (fun _ => .failed (.error "x")) ⟨⟨3⟩⟩ ⟨⟨3⟩⟩ ⟨"t"⟩ ⟨"t"⟩
    (.response (.ok ⟨[⟨"p", "string"⟩], none⟩))
    (.response (.ok ⟨[⟨"p", "string"⟩], none⟩))
    (.response (.ok [⟨1, "a", 0, ⟨[], none⟩⟩]))
    (.response (.ok [⟨1, "a", 0, ⟨[], none⟩⟩])) rfl rfl rfl rfl rfl

/-- C10: ShowTags on a successful empty tag list stores a successful table
with the single column Name and zero rows; and every table ShowTags ever
stores declares that single column, every row holding exactly one value. -/
theorem C10_show_tags_empty_and_row_arity (sess : Session) (items : List TagItem) :
    (execShowTags sess (.response (.ok []))).finished =
      some ⟨⟨["Name"], []⟩, .default⟩ ∧
    (execShowTags sess (.response (.ok []))).outcome = .value .ok ∧
    ∀ r, (execShowTags sess (.response (.ok items))).finished = some r →
      r.data.colNames = ["Name"] ∧ ∀ row ∈ r.data.rows, row.length = 1 := by
  refine ⟨rfl, rfl, ?_⟩
  intro r hr
  have hr' : r = ⟨⟨["Name"], (orderTagNames items).map (fun n => [Value.str n])⟩,
      .default⟩ := by
    have : some (⟨⟨["Name"], (orderTagNames items).map (fun n => [Value.str n])⟩,
        .default⟩ : Result) = some r := hr
    exact (Option.some.inj this).symm
  subst hr'
  refine ⟨rfl, ?_⟩
  intro row hrow
  obtain ⟨n, -, rfl⟩ := List.mem_map.mp hrow
  rfl

/-- C10 witness: the empty response and a one-element response, with the
stored row's arity checked against the declared single column. -/
theorem C10_show_tags_empty_and_row_arity_witness :
    (execShowTags ⟨⟨1⟩⟩ (.response (.ok []))).finished =
      some ⟨⟨["Name"], []⟩, .default⟩ ∧
    (⟨⟨["Name"], [[Value.str "a"]]⟩, .default⟩ : Result).data.colNames =
      ["Name"] ∧
    ([Value.str "a"] : Row).length = 1 := by
  have h := C10_show_tags_empty_and_row_arity ⟨⟨1⟩⟩ [⟨1, "a", 0, ⟨[], none⟩⟩]
  refine ⟨h.1, (h.2.2 _ rfl).1, ?_⟩
  exact (h.2.2 ⟨⟨["Name"], [[Value.str "a"]]⟩, .default⟩ rfl).2 [Value.str "a"]
    (by simp)

end TagExec
